import Mathlib

/-!
Shallow embedding of the IMDb Top 250 scraper (imdb_scraper.py) and proofs of
the specified properties of its extraction, orchestration and normalization
logic.  Network transport, BeautifulSoup document parsing and the `re` /
`float` library primitives are modelled explicitly; every piece of control
flow of the scraper itself is translated from the source.
-/

namespace ImdbScraper

/-- The movie dict built by every extractor:
`{'rank': ..., 'title': ..., 'year': ..., 'rating': ..., 'url': ...}`.
All five keys are always present.  `rank` is an int or None, `title` a str,
`year` an int or None, `url` a str or None.  `rating` is a float or None;
floats are modelled by the source text they were parsed from (only presence
or absence of a rating matters to any property proved below). -/
structure Movie where
  rank : Option Int
  title : String
  year : Option Nat
  rating : Option String
  url : Option String
deriving DecidableEq

/-- Numeric value of a decimal digit character. -/
def digitVal (c : Char) : Nat := c.toNat - 48

/-- Value of a run of decimal digit characters. -/
def natOfDigits (cs : List Char) : Nat :=
  cs.foldl (fun a c => a * 10 + digitVal c) 0

/-- One attempt of `re.search(r'(\d{4})', s)` at the current position:
exactly four consecutive digits (more digits may follow; the match is the
first four). -/
def fourDigitsAt : List Char → Option Nat
  | a :: b :: c :: d :: _ =>
    if a.isDigit && b.isDigit && c.isDigit && d.isDigit then
      some (natOfDigits [a, b, c, d])
    else none
  | _ => none

/-- Leftmost-match scan for `re.search(r'(\d{4})', s)`. -/
def searchFourDigits : List Char → Option Nat
  | [] => none
  | c :: cs =>
    match fourDigitsAt (c :: cs) with
    | some n => some n
    | none => searchFourDigits cs

/-- `re.search(r'(\d{4})', s)`: first run of four consecutive digits.
Python digit classes are modelled as ASCII digits. -/
def firstFourDigits (s : String) : Option Nat :=
  searchFourDigits s.toList

/-- One attempt of `re.search(r'(\d+)\s*min', s)` at the current position:
a maximal nonempty digit run, optional whitespace, then the literal `min`. -/
def runtimeAt (cs : List Char) : Option Nat :=
  let ds := cs.takeWhile Char.isDigit
  if ds.isEmpty then none
  else
    let r := (cs.dropWhile Char.isDigit).dropWhile Char.isWhitespace
    if ['m', 'i', 'n'].isPrefixOf r then some (natOfDigits ds) else none

/-- Leftmost-match scan for `re.search(r'(\d+)\s*min', s)`. -/
def searchRuntime : List Char → Option Nat
  | [] => none
  | c :: cs =>
    match runtimeAt (c :: cs) with
    | some n => some n
    | none => searchRuntime cs

/-- `re.search(r'(\d+)\s*min', text)` as used on a detail page's text. -/
def findRuntime (s : String) : Option Nat :=
  searchRuntime s.toList

/-- `re.sub(r'^\d+\.\s*', '', s)`: delete a leading "<digits>. " rank
prefix when present, otherwise return the string unchanged. -/
def subRankPfx (s : String) : String :=
  let cs := s.toList
  let ds := cs.takeWhile Char.isDigit
  if ds.isEmpty then s
  else
    match cs.dropWhile Char.isDigit with
    | '.' :: r2 => String.mk (r2.dropWhile Char.isWhitespace)
    | _ => s

/-- `re.match(r'^\d+\.\s*(.*)', s)` and its group 1: after a leading
"<digits>. " prefix, the rest of the line (`.` does not cross a newline). -/
def matchRankPfxTail (s : String) : Option String :=
  let cs := s.toList
  let ds := cs.takeWhile Char.isDigit
  if ds.isEmpty then none
  else
    match cs.dropWhile Char.isDigit with
    | '.' :: r2 =>
      some (String.mk ((r2.dropWhile Char.isWhitespace).takeWhile fun c => c ≠ '\n'))
    | _ => none

/-- `re.search(r'^(\d+)\.', s.strip())`: an anchored leading digit run
followed by a literal dot, on the stripped string. -/
def leadingIntDot (s : String) : Option Nat :=
  let cs := s.trim.toList
  let ds := cs.takeWhile Char.isDigit
  if ds.isEmpty then none
  else
    match cs.dropWhile Char.isDigit with
    | '.' :: _ => some (natOfDigits ds)
    | _ => none

/-- Modelled library predicate: whether Python `float(s)` succeeds.
Simplified to the decimal forms arising here: optional sign, at least one
digit, digits with at most one dot, surrounding whitespace stripped
(scientific notation and the named specials are outside this model; no
property below depends on that boundary). -/
def floatTextOk (s : String) : Bool :=
  let cs := s.trim.toList
  let cs :=
    match cs with
    | '+' :: r => r
    | '-' :: r => r
    | r => r
  cs.any Char.isDigit && cs.all (fun c => c.isDigit || c = '.') &&
    (cs.filter (fun c => c = '.')).length ≤ 1

/-- Substring test on character lists (Python `pat in hay`). -/
def containsSubList (pat : List Char) : List Char → Bool
  | [] => pat.isEmpty
  | c :: cs => pat.isPrefixOf (c :: cs) || containsSubList pat cs

/-- Python substring containment `pat in hay`. -/
def strContainsSub (hay pat : String) : Bool :=
  containsSubList pat.toList hay.toList

/-- Modelled library function: `urllib.parse.urljoin` specialised to the
scraper's fixed base `https://www.imdb.com`.  Absolute URLs pass through,
root-relative paths attach to the origin; no property below depends on the
exact joined text. -/
def urljoin (base rel : String) : String :=
  if strContainsSub rel "://" then rel
  else if "/".isPrefixOf rel then base ++ rel
  else base ++ "/" ++ rel

/-- The scraper's `self.base_url`. -/
def base_url : String := "https://www.imdb.com"

/-! ### `re.findall` for the fixed embedded-JSON key patterns

`extract_from_embedded_json` scans raw script text with three shapes of
pattern: `"<key>"\s*:\s*"([^"]+)"` (quoted string value),
`"releaseYear"\s*:\s*(\d{4})` (four-digit value) and
`"ratingValue"\s*:\s*(\d+\.?\d*)` (decimal value).  Each scanner below
implements Python leftmost non-overlapping `findall` semantics: attempt the
pattern at every position, on success resume after the match, on failure
advance one character.  The scan is written with a fuel argument (one unit
per examined position, so `length + 1` always suffices). -/

/-- One attempt of `"<key>"\s*:\s*"([^"]+)"` at the current position;
returns the captured group and the rest of the input after the match. -/
def keyStrAt (key : List Char) (cs : List Char) : Option (String × List Char) :=
  match cs with
  | '"' :: r1 =>
    if key.isPrefixOf r1 then
      match r1.drop key.length with
      | '"' :: r2 =>
        match r2.dropWhile Char.isWhitespace with
        | ':' :: r4 =>
          match (r4.dropWhile Char.isWhitespace) with
          | '"' :: r6 =>
            let cap := r6.takeWhile fun c => c ≠ '"'
            if cap.isEmpty then none
            else
              match r6.dropWhile (fun c => c ≠ '"') with
              | '"' :: r7 => some (String.mk cap, r7)
              | _ => none
          | _ => none
        | _ => none
      | _ => none
    else none
  | _ => none

/-- Leftmost non-overlapping scan with `keyStrAt`. -/
def scanKeyStr (key : List Char) : Nat → List Char → List String
  | 0, _ => []
  | _ + 1, [] => []
  | fuel + 1, c :: cs =>
    match keyStrAt key (c :: cs) with
    | some (cap, rest) => cap :: scanKeyStr key fuel rest
    | none => scanKeyStr key fuel cs

/-- `re.findall('"<key>"\\s*:\\s*"([^"]+)"', s)`. -/
def reFindallKeyStr (key s : String) : List String :=
  scanKeyStr key.toList (s.length + 1) s.toList

/-- One attempt of `"releaseYear"\s*:\s*(\d{4})` at the current position. -/
def keyYearAt (cs : List Char) : Option (String × List Char) :=
  match cs with
  | '"' :: r1 =>
    if ("releaseYear".toList).isPrefixOf r1 then
      match r1.drop 11 with
      | '"' :: r2 =>
        match r2.dropWhile Char.isWhitespace with
        | ':' :: r4 =>
          match r4.dropWhile Char.isWhitespace with
          | a :: b :: c :: d :: r6 =>
            if a.isDigit && b.isDigit && c.isDigit && d.isDigit then
              some (String.mk [a, b, c, d], r6)
            else none
          | _ => none
        | _ => none
      | _ => none
    else none
  | _ => none

/-- Leftmost non-overlapping scan with `keyYearAt`. -/
def scanYears : Nat → List Char → List String
  | 0, _ => []
  | _ + 1, [] => []
  | fuel + 1, c :: cs =>
    match keyYearAt (c :: cs) with
    | some (cap, rest) => cap :: scanYears fuel rest
    | none => scanYears fuel cs

/-- `re.findall(r'"releaseYear"\s*:\s*(\d{4})', s)`. -/
def reFindallYears (s : String) : List String :=
  scanYears (s.length + 1) s.toList

/-- One attempt of `"ratingValue"\s*:\s*(\d+\.?\d*)` at the current
position: maximal digit run (nonempty), at most one dot, maximal digit
run. -/
def keyRatingAt (cs : List Char) : Option (String × List Char) :=
  match cs with
  | '"' :: r1 =>
    if ("ratingValue".toList).isPrefixOf r1 then
      match r1.drop 11 with
      | '"' :: r2 =>
        match r2.dropWhile Char.isWhitespace with
        | ':' :: r4 =>
          let r5 := r4.dropWhile Char.isWhitespace
          let d1 := r5.takeWhile Char.isDigit
          if d1.isEmpty then none
          else
            match r5.dropWhile Char.isDigit with
            | '.' :: r6 =>
              let d2 := r6.takeWhile Char.isDigit
              some (String.mk (d1 ++ '.' :: d2), r6.dropWhile Char.isDigit)
            | r6 => some (String.mk d1, r6)
        | _ => none
      | _ => none
    else none
  | _ => none

/-- Leftmost non-overlapping scan with `keyRatingAt`. -/
def scanRatings : Nat → List Char → List String
  | 0, _ => []
  | _ + 1, [] => []
  | fuel + 1, c :: cs =>
    match keyRatingAt (c :: cs) with
    | some (cap, rest) => cap :: scanRatings fuel rest
    | none => scanRatings fuel cs

/-- `re.findall(r'"ratingValue"\s*:\s*(\d+\.?\d*)', s)`. -/
def reFindallRatings (s : String) : List String :=
  scanRatings (s.length + 1) s.toList

/-! ### `extract_from_embedded_json` (source lines 443-483) -/

/-- The title-key patterns tried in priority order. -/
def embeddedKeys : List String := ["titleText", "primaryText", "title"]

/-- The item-building loop `for i, title in enumerate(titles[:250])`:
`year = int(years[i]) if i < len(years) else None`, likewise for rating,
`rank = i + 1`, `url = None`.  `i` counts from the given start index. -/
def buildAligned : Nat → List String → List String → List String → List Movie
  | _, [], _, _ => []
  | i, t :: ts, ys, rs =>
    { rank := some ((i : Int) + 1), title := t,
      year := (ys.get? i).bind String.toNat?,
      rating := rs.get? i,
      url := none } :: buildAligned (i + 1) ts ys rs

/-- The `for pattern in patterns` loop of `extract_from_embedded_json`:
for the first pattern whose `findall` yields more than 50 titles, build the
aligned items from `titles[:250]` and return them if nonempty. -/
def embedded_loop (s : String) (movies : List Movie) : List String → List Movie
  | [] => movies
  | key :: rest =>
    let titles := reFindallKeyStr key s
    if titles.length > 50 then
      let movies2 := movies ++ buildAligned 0 (titles.take 250)
        (reFindallYears s) (reFindallRatings s)
      if movies2.isEmpty then embedded_loop s movies2 rest else movies2
    else embedded_loop s movies rest

/-- `extract_from_embedded_json(script_content)`. -/
def extract_from_embedded_json (s : String) : List Movie :=
  embedded_loop s [] embeddedKeys

/-! ### `extract_from_container` (source lines 213-259) and the modern
card-list branch of `extract_from_classic_page` (source lines 119-127)

A modern list container is modelled by the results of the four fixed
BeautifulSoup lookups the code performs on it: the stripped text of
`h3.ipc-title__text`, of `span.cli-title-metadata-item`, of
`span.ipc-rating-star--rating`, and the `href` of
`a.ipc-title-link-wrapper` (outer `Option`: element found; inner `Option`:
the `href` attribute present). -/

structure Container where
  titleText : Option String
  yearText : Option String
  ratingText : Option String
  linkHref : Option (Option String)
deriving DecidableEq

/-- `extract_from_container(container, rank)`: the returned dict has the
positional `rank` argument as its rank; the in-text "<n>. " prefix is only
stripped from the title. -/
def extract_from_container (c : Container) (rank : Nat) : Movie :=
  let title :=
    match c.titleText with
    | none => "Unknown"
    | some t =>
      match matchRankPfxTail t with
      | some rest => rest
      | none => t
  let year :=
    match c.yearText with
    | none => none
    | some yt => firstFourDigits yt
  let rating :=
    match c.ratingText with
    | none => none
    | some rt => if floatTextOk rt then some rt else none
  let url :=
    match c.linkHref with
    | some (some h) => if h ≠ "" then some (urljoin base_url h) else none
    | _ => none
  { rank := some (rank : Int), title := title, year := year,
    rating := rating, url := url }

/-- `enumerate(xs, i)`. -/
def enumFrom (i : Nat) : List α → List (Nat × α)
  | [] => []
  | x :: xs => (i, x) :: enumFrom (i + 1) xs

/-- The modern-structure branch of `extract_from_classic_page`:
`for i, container in enumerate(containers, 1): ... extract_from_container
(container, i)`; every extraction yields a dict, so every container
contributes one item. -/
def modern_cards (containers : List Container) : List Movie :=
  (enumFrom 1 containers).map fun p => extract_from_container p.2 p.1

/-! ### `extract_movie_data_generic` (source lines 518-600) and
`parse_html_for_movies` (source lines 485-516)

A generic element is modelled by the two BeautifulSoup capabilities the
code uses on it: `select_one` (by CSS selector string, returning at most
one sub-element with stripped text and an optional `href`) and the
element's own full text. -/

structure SubElem where
  textStrip : String
  href : Option String
deriving DecidableEq

structure Elem where
  selOne : String → Option SubElem
  fullText : String

structure Soup where
  select : String → List Elem

/-- The fixed title selector priority list of `extract_movie_data_generic`. -/
def title_selectors : List String :=
  ["h3.ipc-title__text", "a.titleColumn", "td.titleColumn a",
   "a[href*=\"/title/tt\"]", ".cli-title a"]

/-- The fixed year selector priority list. -/
def year_selectors : List String :=
  [".cli-title-metadata-item", ".secondaryInfo", "span.secondaryInfo"]

/-- The fixed rating selector priority list. -/
def rating_selectors : List String :=
  [".ipc-rating-star--rating", "strong", ".ratingColumn strong", ".cli-rating"]

/-- The title loop: first selector whose element text, after deleting a
leading rank prefix, is truthy and longer than one character. -/
def genericTitle (e : Elem) : List String → String
  | [] => "Unknown"
  | sel :: rest =>
    match e.selOne sel with
    | some te =>
      let tc := subRankPfx te.textStrip
      if tc ≠ "" && tc.length > 1 then tc else genericTitle e rest
    | none => genericTitle e rest

/-- The year loop: first selector whose element text contains a four-digit
run. -/
def genericYear (e : Elem) : List String → Option Nat
  | [] => none
  | sel :: rest =>
    match e.selOne sel with
    | some ye =>
      match firstFourDigits ye.textStrip with
      | some y => some y
      | none => genericYear e rest
    | none => genericYear e rest

/-- The rating loop: first selector whose element text parses as a float. -/
def genericRating (e : Elem) : List String → Option String
  | [] => none
  | sel :: rest =>
    match e.selOne sel with
    | some re =>
      if floatTextOk re.textStrip then some re.textStrip
      else genericRating e rest
    | none => genericRating e rest

/-- `extract_movie_data_generic(element, rank)`: the positional rank is
overridden by an anchored "<n>." prefix of the element's stripped full
text when one exists. -/
def extract_movie_data_generic (e : Elem) (rank : Nat) : Movie :=
  let url :=
    match e.selOne "a[href*=\"/title/tt\"]" with
    | some le =>
      match le.href with
      | some h => if h ≠ "" then some (urljoin base_url h) else none
      | none => none
    | none => none
  let extracted_rank :=
    match leadingIntDot e.fullText with
    | some n => n
    | none => rank
  { rank := some (extracted_rank : Int),
    title := genericTitle e title_selectors,
    year := genericYear e year_selectors,
    rating := genericRating e rating_selectors,
    url := url }

/-- The fixed selector priority list of `parse_html_for_movies`. -/
def sweep_selectors : List String :=
  ["li.ipc-metadata-list-summary-item", "tr[data-testid]", "li.titleColumn",
   ".lister-item", ".cli-item"]

/-- The per-selector extraction of `parse_html_for_movies`: each element
in order, ranked by its 1-based position, keeping items whose title is not
the "Unknown" sentinel. -/
def sweepExtract (elems : List Elem) : List Movie :=
  ((enumFrom 1 elems).map fun p => extract_movie_data_generic p.2 p.1).filter
    fun m => m.title ≠ "Unknown"

/-- The selector loop of `parse_html_for_movies`: `movies` accumulates
across selectors; after a selector with a nonempty element list is
processed, the loop stops when the accumulated count exceeds 50. -/
def sweep_loop (soup : Soup) (movies : List Movie) : List String → List Movie
  | [] => movies
  | sel :: rest =>
    let elements := soup.select sel
    if elements.isEmpty then sweep_loop soup movies rest
    else
      let movies2 := movies ++ sweepExtract elements
      if movies2.length > 50 then movies2 else sweep_loop soup movies2 rest

/-- `parse_html_for_movies(soup)`. -/
def parse_html_for_movies (soup : Soup) : List Movie :=
  sweep_loop soup [] sweep_selectors

/-! ### `extract_movies_from_any_page` (source lines 386-441)

JSON values are modelled by `J` (numbers as integers: every numeric field
the code reads in this hypothesis is an integer in practice).  A
`json.loads` outcome is `Option J` (`none` = `JSONDecodeError`).  The
`Except Unit` results model the Python exceptions that are not caught by
the per-script handler and therefore abort the whole page extraction via
the outer handler, which returns `[]`. -/

inductive J where
  | null
  | jbool (b : Bool)
  | num (n : Int)
  | str (s : String)
  | arr (xs : List J)
  | obj (fields : List (String × J))

/-- First-occurrence association lookup (Python dict access on the parsed
object). -/
def lookupJ : List (String × J) → String → Option J
  | [], _ => none
  | (k, v) :: fs, key => if k = key then some v else lookupJ fs key

/-- Model boundary: the textual stand-in for a raw JSON value stored into a
dict field.  Only scalar values reach the rendered positions in practice;
no property below inspects a rendered composite. -/
def jRender : J → String
  | .null => "None"
  | .jbool b => if b then "True" else "False"
  | .num n => toString n
  | .str s => s
  | .arr _ => "[...]"
  | .obj _ => "\x7b...\x7d"

/-- Build the movie dict for one `itemListElement` entry (source lines
398-414): `entryFields` are the entry's own fields (for `position`),
`info` is its `item` value, `nMovies` is `len(movies)` so far.  Errors:
`movie_info.get` on a non-dict raises AttributeError; `re.search` on a
non-string `datePublished` raises TypeError. -/
def entryMovie (entryFields : List (String × J)) (info : J) (nMovies : Nat) :
    Except Unit Movie :=
  match info with
  | .obj ifs =>
    let rank : Option Int :=
      match lookupJ entryFields "position" with
      | some (.num n) => some n
      -- model boundary: Python would store a non-numeric position value
      -- as-is in the dict; the Int-rank model collapses it to None (no
      -- property below exercises a non-numeric position)
      | some _ => none
      | none => some ((nMovies : Int) + 1)
    let title :=
      match lookupJ ifs "name" with
      | some (.str s) => s
      | some v => jRender v
      | none => "Unknown"
    let url :=
      match lookupJ ifs "url" with
      | some (.str s) => some s
      | some v => some (jRender v)
      | none => none
    let ratingE : Except Unit (Option String) :=
      match lookupJ ifs "aggregateRating" with
      | none => .ok none
      | some (.obj afs) => .ok ((lookupJ afs "ratingValue").map jRender)
      | some _ => .error ()
    let yearE : Except Unit (Option Nat) :=
      match lookupJ ifs "datePublished" with
      | none => .ok none
      | some (.str s) => .ok (firstFourDigits s)
      | some _ => .error ()
    match ratingE, yearE with
    | .ok rating, .ok year =>
      .ok { rank := rank, title := title, year := year, rating := rating, url := url }
    | _, _ => .error ()
  | _ => .error ()

/-- One `for item in data['itemListElement']` step: `'item' in item` on a
dict is key containment; on a string it is substring containment followed
by a TypeError on indexing when it holds; on a list it is membership
likewise; on anything else it raises TypeError outright. -/
def processEntry (acc : List Movie) (entry : J) : Except Unit (List Movie) :=
  match entry with
  | .obj efs =>
    match lookupJ efs "item" with
    | some info =>
      match entryMovie efs info acc.length with
      | .ok m => .ok (acc ++ [m])
      | .error e => .error e
    | none => .ok acc
  | .str s => if strContainsSub s "item" then .error () else .ok acc
  | .arr xs =>
    if xs.any (fun x => match x with | .str t => t = "item" | _ => false) then
      .error ()
    else .ok acc
  | _ => .error ()

/-- The fold over one block's `itemListElement` entries. -/
def foldEntries : List J → List Movie → Except Unit (List Movie)
  | [], acc => .ok acc
  | e :: es, acc =>
    match processEntry acc e with
    | .ok acc2 => foldEntries es acc2
    | .error er => .error er

/-- Iterating `data['itemListElement']`: a JSON array iterates its
entries; iterating a string visits single characters (which can never
contain `item`); iterating a dict visits its keys (a key containing
`item` then raises on indexing); anything else is not iterable. -/
def iterItems (v : J) (acc : List Movie) : Except Unit (List Movie) :=
  match v with
  | .arr entries => foldEntries entries acc
  | .str _ => .ok acc
  | .obj fs =>
    if fs.any (fun kv => strContainsSub kv.1 "item") then .error () else .ok acc
  | _ => .error ()

/-- One structured-data block (source lines 395-414): only dicts with an
`itemListElement` key contribute. -/
def ldStep (j : J) (acc : List Movie) : Except Unit (List Movie) :=
  match j with
  | .obj fs =>
    match lookupJ fs "itemListElement" with
    | some v => iterItems v acc
    | none => .ok acc
  | _ => .ok acc

/-- Method 1 of `extract_movies_from_any_page`: scan the structured-data
blocks in order; a decode failure skips the block; after each block,
return immediately once at least 100 items have accumulated (`inl`),
otherwise fall through with the accumulator (`inr`). -/
def ld_loop : List (Option J) → List Movie →
    Except Unit (Sum (List Movie) (List Movie))
  | [], acc => .ok (.inr acc)
  | none :: rest, acc => ld_loop rest acc
  | some j :: rest, acc =>
    match ldStep j acc with
    | .error e => .error e
    | .ok acc2 => if acc2.length ≥ 100 then .ok (.inl acc2) else ld_loop rest acc2

/-- A page as consumed by `extract_movies_from_any_page`: the parse
outcomes of its `application/ld+json` blocks, the `.string` of every
script tag, and the document for the HTML fallback. -/
structure Page where
  ldScripts : List (Option J)
  scripts : List (Option String)
  soup : Soup

/-- Method 2 (source lines 424-429): for each script tag whose string is
truthy and mentions `titleText` or (lowercased) `movies`, run the embedded
JSON extractor and keep the longer result. -/
def script_loop (movies : List Movie) : List (Option String) → List Movie
  | [] => movies
  | none :: rest => script_loop movies rest
  | some s :: rest =>
    if s ≠ "" && (strContainsSub s "titleText" || strContainsSub s.toLower "movies") then
      let json_movies := extract_from_embedded_json s
      if json_movies.length > movies.length then script_loop json_movies rest
      else script_loop movies rest
    else script_loop movies rest

/-- `extract_movies_from_any_page(soup)`: Method 1 (structured data, with
its early return), then Method 2 (embedded script JSON), then Method 3
(HTML structure) when still below 100 items; an uncaught Method 1
exception yields `[]` via the outer handler. -/
def extract_movies_from_any_page (p : Page) : List Movie :=
  match ld_loop p.ldScripts [] with
  | .error _ => []
  | .ok (.inl movies) => movies
  | .ok (.inr movies) =>
    let movies := script_loop movies p.scripts
    if movies.length < 100 then
      let html_movies := parse_html_for_movies p.soup
      if html_movies.length > movies.length then html_movies else movies
    else movies

/-! ### `get_additional_details` (source lines 650-702)

A detail page document is modelled by its `select_one` capability, its
full text, and its `select` capability; the transport result is `Option`
(`none` = no response after retries). -/

structure DetailSoup where
  selOne : String → Option SubElem
  text : String
  selectAll : String → List SubElem

structure DetailRecord where
  director : String
  runtime_minutes : Option Nat
  genres : String
deriving DecidableEq

/-- The fixed director selector priority list. -/
def director_selectors : List String :=
  ["a[class*=\"ipc-metadata-list-item__list-content-item--link\"]",
   ".credit_summary_item a",
   "[data-testid=\"title-pc-principal-credit\"] a"]

/-- The fixed genre selector priority list. -/
def genre_selectors : List String :=
  ["[data-testid=\"genres\"] a",
   ".see-more.inline a[href*=\"genre\"]",
   ".subtext a[href*=\"genre\"]"]

/-- The director loop: stripped text of the first selector match, else the
"Unknown" sentinel. -/
def detailDirector (soup : DetailSoup) : List String → String
  | [] => "Unknown"
  | sel :: rest =>
    match soup.selOne sel with
    | some e => e.textStrip
    | none => detailDirector soup rest

/-- The genre loop: first selector with matches contributes up to three
stripped texts, joined by a comma; no match at all yields "Unknown". -/
def detailGenres (soup : DetailSoup) : List String → String
  | [] => "Unknown"
  | sel :: rest =>
    let elems := soup.selectAll sel
    if elems.isEmpty then detailGenres soup rest
    else String.intercalate ", " ((elems.take 3).map SubElem.textStrip)

/-- `get_additional_details(movie_url)` given the fetched document (or
`None` after failed retries).  The whole body is wrapped in a handler that
returns the sentinel record, so the function never raises. -/
def get_additional_details (page : Option DetailSoup) : DetailRecord :=
  match page with
  | none => { director := "Unknown", runtime_minutes := none, genres := "Unknown" }
  | some soup =>
    { director := detailDirector soup director_selectors,
      runtime_minutes := findRuntime soup.text,
      genres := detailGenres soup genre_selectors }

/-! ### `scrape_top250` (source lines 602-648) -/

/-- The filter-and-dedup loop (source lines 632-639): keep items whose
title is truthy (nonempty), not the "Unknown" sentinel, and not seen
before; first occurrence wins. -/
def valid_filter : List Movie → List String → List Movie
  | [], _ => []
  | m :: ms, seen =>
    if m.title ≠ "" && m.title ≠ "Unknown" && !(seen.contains m.title) then
      m :: valid_filter ms (m.title :: seen)
    else valid_filter ms seen

/-- The sort key `lambda x: x.get('rank', 999)`: every movie dict built by
this program carries the `rank` key, so the 999 default never applies and
the key is the stored rank; the `getD 999` below is evaluated only on
present ranks. -/
def rankKey (m : Movie) : Int := m.rank.getD 999

/-- Key comparison of the sort. -/
def rankLe (a b : Movie) : Prop := rankKey a ≤ rankKey b

instance : DecidableRel rankLe := fun a b => Int.decLe (rankKey a) (rankKey b)

/-- `valid_movies.sort(key=lambda x: x.get('rank', 999))` with CPython
semantics: stable ascending sort on the key, but comparing a `None` key
with anything raises TypeError, and with at least two elements every
element takes part in at least one comparison during run detection, so
the sort raises exactly when the list has two or more items and some item
has rank `None`. -/
def sort_by_rank (l : List Movie) : Except String (List Movie) :=
  if l.length ≤ 1 then .ok l
  else if l.any (fun m => m.rank.isNone) then
    .error "TypeError: not supported between instances of NoneType and int"
  else .ok (List.insertionSort rankLe l)

/-- `for i, movie in enumerate(valid_movies, 1): movie['rank'] = i`. -/
def reassign_ranks : Nat → List Movie → List Movie
  | _, [] => []
  | i, m :: ms => { m with rank := some (i : Int) } :: reassign_ranks (i + 1) ms

/-- The clean-and-validate pass of `scrape_top250` (source lines 631-648):
filter and dedup, sort by existing rank, reassign contiguous ranks from 1,
return at most the first 250.  The `Except` carries the TypeError the sort
raises on a `None` rank. -/
def normalize (all_movies : List Movie) : Except String (List Movie) :=
  match sort_by_rank (valid_filter all_movies []) with
  | .error e => .error e
  | .ok sorted => .ok ((reassign_ranks 1 sorted).take 250)

/-- The stage selection of `scrape_top250` (source lines 606-629) as a
function of the three stage results: take a stage's list when strictly
longer than the running best, and enter a later stage only while the
running best has fewer than 200 items. -/
def orchestrate (m1 m2 m3 : List Movie) : List Movie :=
  let a0 : List Movie := []
  let a1 := if m1.length > a0.length then m1 else a0
  let a2 := if a1.length < 200 then (if m2.length > a1.length then m2 else a1) else a1
  if a2.length < 200 then (if m3.length > a2.length then m3 else a2) else a2

/-- `scrape_top250` as a function of the three stage candidate lists. -/
def scrape_top250 (m1 m2 m3 : List Movie) : Except String (List Movie) :=
  normalize (orchestrate m1 m2 m3)

/-- From the spec's words: the candidate lists actually observed across
the three stages, given the 200-item gate between stages. -/
def observedStages (m1 m2 m3 : List Movie) : List (List Movie) :=
  if 200 ≤ m1.length then [m1]
  else if 200 ≤ max m1.length m2.length then [m1, m2]
  else [m1, m2, m3]

/-- From the spec's words: the single longest candidate list observed,
the earlier one retained on equal lengths. -/
def firstLongest (cands : List (List Movie)) : List Movie :=
  cands.foldl (fun best c => if c.length > best.length then c else best) []

/-! ## Concrete inputs used by counterexamples and witnesses -/

/-- A detail page with no matching selectors and no runtime text. -/
def c9Soup : DetailSoup := ⟨fun _ => none, "", fun _ => []⟩

/-- A detail page with runtime content in its text but no selector
matches: the director sentinel must not depend on the rest of the page. -/
def c9SoupRuntime : DetailSoup := ⟨fun _ => none, "Runtime 175 min", fun _ => []⟩

/-- Right-nested repetition of a character block (kept right-nested so
that concrete evaluation is cheap). -/
def repChars : Nat → List Char → List Char
  | 0, _ => []
  | n + 1, l => l ++ repChars n l

/-- A script text with exactly 60 `titleText` matches and 55
`releaseYear` matches. -/
def c7Str : String :=
  String.mk (repChars 60 "\"titleText\": \"T\",".toList ++
    repChars 55 "\"releaseYear\": 1994,".toList)

/-- A generic element whose only selector hit is the title selector, with
the given text. -/
def titledElem (t : String) : Elem :=
  ⟨fun sel => if sel = "h3.ipc-title__text" then some ⟨t, none⟩ else none, ""⟩

/-- A page for the selector sweep: the first selector yields 10 titled
elements, the second 60, the rest none. -/
def c3Soup : Soup :=
  ⟨fun sel =>
    if sel = "li.ipc-metadata-list-summary-item" then
      (List.range 10).map fun i => titledElem ("Y" ++ toString i)
    else if sel = "tr[data-testid]" then
      (List.range 60).map fun i => titledElem ("X" ++ toString i)
    else []⟩

/-- A well-formed structured-data list entry. -/
def c4Entry : J := J.obj [("item", J.obj [("name", J.str "M")])]

/-- Well-formedness of an `itemListElement` entry: a dict whose `item` is
a dict, with `aggregateRating` absent or a dict and `datePublished` absent
or a string — exactly the shapes on which `processEntry` appends one item
without raising. -/
def entryOk (e : J) : Bool :=
  match e with
  | .obj efs =>
    match lookupJ efs "item" with
    | some (.obj ifs) =>
      (match lookupJ ifs "aggregateRating" with
       | none => true
       | some (.obj _) => true
       | some _ => false) &&
      (match lookupJ ifs "datePublished" with
       | none => true
       | some (.str _) => true
       | some _ => false)
    | _ => false
  | _ => false

/-- A candidate list exercising dedup, sentinel filtering and rank
reassignment. -/
def c1Input : List Movie :=
  [{ rank := some 2, title := "B", year := none, rating := none, url := none },
   { rank := some 1, title := "A", year := none, rating := none, url := none },
   { rank := some 3, title := "A", year := none, rating := none, url := none },
   { rank := some 4, title := "Unknown", year := none, rating := none, url := none },
   { rank := some 5, title := "", year := none, rating := none, url := none }]

/-- The normalized output of `c1Input`. -/
def c1Output : List Movie :=
  [{ rank := some 1, title := "A", year := none, rating := none, url := none },
   { rank := some 2, title := "B", year := none, rating := none, url := none }]

/-! ## Helper lemmas -/

theorem buildAligned_length (ts : List String) :
    ∀ i ys rs, (buildAligned i ts ys rs).length = ts.length := by
  induction ts with
  | nil => intro i ys rs; rfl
  | cons t ts ih => intro i ys rs; simp [buildAligned, ih]

theorem buildAligned_url (ts : List String) :
    ∀ i ys rs, (buildAligned i ts ys rs).map Movie.url =
      List.replicate ts.length none := by
  induction ts with
  | nil => intro i ys rs; rfl
  | cons t ts ih =>
    intro i ys rs
    simp [buildAligned, ih, List.replicate_succ]

theorem buildAligned_rank (ts : List String) :
    ∀ i ys rs, (buildAligned i ts ys rs).map Movie.rank =
      (List.range' (i + 1) ts.length).map fun k => some ((k : Nat) : Int) := by
  induction ts with
  | nil => intro i ys rs; rfl
  | cons t ts ih =>
    intro i ys rs
    simp only [buildAligned, List.map_cons, List.length_cons, List.range'_succ,
      ih (i + 1)]
    congr 2

theorem buildAligned_year (ts : List String) :
    ∀ i k ys rs m, (buildAligned i ts ys rs).get? k = some m →
      m.year = (ys.get? (i + k)).bind String.toNat? := by
  induction ts with
  | nil => intro i k ys rs m h; simp [buildAligned] at h
  | cons t ts ih =>
    intro i k ys rs m h
    match k with
    | 0 =>
      simp only [buildAligned, List.get?] at h
      cases h
      rfl
    | k + 1 =>
      simp only [buildAligned, List.get?] at h
      have hh := ih (i + 1) k ys rs m h
      rw [show i + (k + 1) = i + 1 + k from by omega]
      exact hh

theorem buildAligned_rating (ts : List String) :
    ∀ i k ys rs m, (buildAligned i ts ys rs).get? k = some m →
      m.rating = rs.get? (i + k) := by
  induction ts with
  | nil => intro i k ys rs m h; simp [buildAligned] at h
  | cons t ts ih =>
    intro i k ys rs m h
    match k with
    | 0 =>
      simp only [buildAligned, List.get?] at h
      cases h
      rfl
    | k + 1 =>
      simp only [buildAligned, List.get?] at h
      have hh := ih (i + 1) k ys rs m h
      rw [show i + (k + 1) = i + 1 + k from by omega]
      exact hh

theorem enumFrom_map_rank (cs : List Container) :
    ∀ i, (((enumFrom i cs).map fun p => extract_from_container p.2 p.1).map Movie.rank)
      = (List.range' i cs.length).map fun k => some ((k : Nat) : Int) := by
  induction cs with
  | nil => intro i; rfl
  | cons c cs ih =>
    intro i
    simp only [enumFrom, List.map_cons, List.length_cons, List.range'_succ, ih (i + 1)]
    congr 1

/-! ## The claims -/

/-- C2: the orchestrator's working list equals the longest candidate list
observed across the three stages (later stages are observed only while the
running best has fewer than 200 items), the earlier stage's list retained
on equal lengths; in particular, of two observed stage lists of lengths
120 and 80 the 120-length one is chosen. -/
theorem orchestrate_picks_first_longest (m1 m2 m3 : List Movie) :
    orchestrate m1 m2 m3 = firstLongest (observedStages m1 m2 m3) := by
  have h1 : (if m1.length > (List.length ([] : List Movie)) then m1 else []) = m1 := by
    split
    · rfl
    · next h =>
      have : m1.length = 0 := by simpa using h
      exact (List.eq_nil_of_length_eq_zero this).symm
  by_cases hA : 200 ≤ m1.length
  · have hA2 : ¬ m1.length < 200 := by omega
    simp only [orchestrate, observedStages, firstLongest, h1, if_pos hA,
      if_neg hA2, List.foldl]
  · by_cases hB : 200 ≤ m2.length
    · have hB2 : m1.length < 200 := by omega
      have hB3 : m2.length > m1.length := by omega
      have hB4 : ¬ m2.length < 200 := by omega
      have hB5 : 200 ≤ max m1.length m2.length := by omega
      simp only [orchestrate, observedStages, firstLongest, h1, if_neg hA,
        if_pos hB5, List.foldl, if_pos hB2, if_pos hB3, if_neg hB4]
    · have hC1 : m1.length < 200 := by omega
      have hC5 : ¬ 200 ≤ max m1.length m2.length := by omega
      simp only [orchestrate, observedStages, firstLongest, h1, if_neg hA,
        if_neg hC5, List.foldl, if_pos hC1]
      by_cases hD : m2.length > m1.length
      · have hE : m2.length < 200 := by omega
        simp only [if_pos hD, if_pos hE]
      · simp only [if_neg hD, if_pos hC1]

/-- C5 (code-bug evidence): when the candidate list contains an item whose
rank is None next to one with an integer rank, the normalization sort
raises TypeError instead of sorting the rank-less item last: `dict.get`'s
999 default applies only to an absent key, and the `rank` key is always
present. -/
theorem normalize_raises_on_none_rank :
    normalize [{ rank := none, title := "A", year := none, rating := none, url := none },
               { rank := some 1, title := "B", year := none, rating := none, url := none }] =
      .error "TypeError: not supported between instances of NoneType and int" := by
  rfl

/-- C8 (counterexample): a single item-summary container whose title text
carries the explicit in-text rank prefix "7. " still gets the positional
rank 1, not 7 — `extract_from_container` only strips the prefix from the
title and never overrides the positional rank. -/
theorem modern_cards_ignores_text_rank_cex :
    (Container.mk (some "7. The Movie") none none none).titleText = some "7. The Movie" ∧
    modern_cards [Container.mk (some "7. The Movie") none none none] =
      [{ rank := some 1, title := "The Movie", year := none, rating := none, url := none }] ∧
    some (1 : Int) ≠ some (7 : Int) := by
  refine ⟨rfl, by decide, by decide⟩

/-- C8 (amended): in the modern card-list hypothesis each item's rank is
always its 1-based ordinal position among the item-summary containers; an
explicit in-text rank prefix is stripped from the title but does not
override the positional rank. -/
theorem modern_cards_rank_positional :
    (∀ cs : List Container, (modern_cards cs).map Movie.rank =
      (List.range' 1 cs.length).map fun k => some ((k : Nat) : Int)) ∧
    (∀ (c : Container) (n : Nat), (extract_from_container c n).rank = some (n : Int)) := by
  constructor
  · intro cs
    exact enumFrom_map_rank cs 1
  · intro c n
    rfl

/-- C9: every detail page on which no director selector matches yields
`director = "Unknown"`, whatever else the page contains; additionally, any
other field not found falls back to its own sentinel (runtime `None` on a
regex miss, genres "Unknown" on a selector miss), and a failed fetch
yields the all-sentinel record.  The function is total: no exception
reaches the caller. -/
theorem get_additional_details_sentinels (soup : DetailSoup)
    (hd : ∀ sel ∈ director_selectors, soup.selOne sel = none) :
    (get_additional_details (some soup)).director = "Unknown" ∧
    (findRuntime soup.text = none →
      (get_additional_details (some soup)).runtime_minutes = none) ∧
    ((∀ sel ∈ genre_selectors, soup.selectAll sel = []) →
      (get_additional_details (some soup)).genres = "Unknown") ∧
    get_additional_details none =
      { director := "Unknown", runtime_minutes := none, genres := "Unknown" } := by
  have h1 : soup.selOne "a[class*=\"ipc-metadata-list-item__list-content-item--link\"]" = none :=
    hd _ (by simp [director_selectors])
  have h2 : soup.selOne ".credit_summary_item a" = none :=
    hd _ (by simp [director_selectors])
  have h3 : soup.selOne "[data-testid=\"title-pc-principal-credit\"] a" = none :=
    hd _ (by simp [director_selectors])
  refine ⟨?_, ?_, ?_, rfl⟩
  · simp [get_additional_details, detailDirector, director_selectors, h1, h2, h3]
  · intro hr
    simp [get_additional_details, hr]
  · intro hg
    have g1 : soup.selectAll "[data-testid=\"genres\"] a" = [] :=
      hg _ (by simp [genre_selectors])
    have g2 : soup.selectAll ".see-more.inline a[href*=\"genre\"]" = [] :=
      hg _ (by simp [genre_selectors])
    have g3 : soup.selectAll ".subtext a[href*=\"genre\"]" = [] :=
      hg _ (by simp [genre_selectors])
    simp [get_additional_details, detailGenres, genre_selectors, g1, g2, g3]

/-- C9 witness: on a page with no matching selectors and no runtime text
every field is its sentinel, and on a page whose text does carry runtime
content but still matches no director selector the director is still the
"Unknown" sentinel. -/
theorem get_additional_details_sentinels_witness :
    (get_additional_details (some c9Soup)).director = "Unknown" ∧
    (get_additional_details (some c9Soup)).runtime_minutes = none ∧
    (get_additional_details (some c9Soup)).genres = "Unknown" ∧
    get_additional_details none =
      { director := "Unknown", runtime_minutes := none, genres := "Unknown" } ∧
    (get_additional_details (some c9SoupRuntime)).director = "Unknown" ∧
    (get_additional_details (some c9SoupRuntime)).runtime_minutes = some 175 :=
  ⟨(get_additional_details_sentinels c9Soup (fun _ _ => rfl)).1,
   (get_additional_details_sentinels c9Soup (fun _ _ => rfl)).2.1 rfl,
   (get_additional_details_sentinels c9Soup (fun _ _ => rfl)).2.2.1 (fun _ _ => rfl),
   (get_additional_details_sentinels c9Soup (fun _ _ => rfl)).2.2.2,
   (get_additional_details_sentinels c9SoupRuntime (fun _ _ => rfl)).1,
   rfl⟩

theorem embedded_loop_shape (s : String) (ks : List String) :
    embedded_loop s [] ks = [] ∨
    ∃ ts, embedded_loop s [] ks =
      buildAligned 0 ts (reFindallYears s) (reFindallRatings s) := by
  induction ks with
  | nil => exact Or.inl rfl
  | cons k rest ih =>
    by_cases h50 : (reFindallKeyStr k s).length > 50
    · simp only [embedded_loop, if_pos h50, List.nil_append]
      by_cases he :
          (buildAligned 0 ((reFindallKeyStr k s).take 250)
            (reFindallYears s) (reFindallRatings s)).isEmpty
      · rw [if_pos he, List.isEmpty_iff.mp he]
        exact ih
      · rw [if_neg he]
        exact Or.inr ⟨_, rfl⟩
    · simp only [embedded_loop, if_neg h50]
      exact ih

/-- C10: every item built by the embedded-script regex hypothesis has
`url = None` and rank equal to its 1-based position in the returned list,
so such a result never carries detail URLs and its ranks are dense `1..n`
before normalization. -/
theorem extract_from_embedded_json_url_none_rank_dense (s : String) :
    (extract_from_embedded_json s).map Movie.url =
      List.replicate (extract_from_embedded_json s).length none ∧
    (extract_from_embedded_json s).map Movie.rank =
      (List.range' 1 (extract_from_embedded_json s).length).map
        fun k => some ((k : Nat) : Int) := by
  unfold extract_from_embedded_json
  rcases embedded_loop_shape s embeddedKeys with h | ⟨ts, h⟩
  · rw [h]
    exact ⟨rfl, rfl⟩
  · rw [h, buildAligned_url, buildAligned_length, buildAligned_rank]
    exact ⟨rfl, rfl⟩

/-- C7: when the embedded-script hypothesis matches 60 titles but only 55
years, it returns one item per title (60 items, at most 250), the items at
title-indices 55 and beyond have `year = None` rather than raising, and
likewise an item whose index is beyond the ratings array has
`rating = None`. -/
theorem extract_from_embedded_json_misaligned (s : String)
    (ht : (reFindallKeyStr "titleText" s).length = 60)
    (hy : (reFindallYears s).length = 55) :
    (extract_from_embedded_json s).length = 60 ∧
    (extract_from_embedded_json s).length ≤ 250 ∧
    (∀ i m, (extract_from_embedded_json s).get? i = some m → 55 ≤ i →
      m.year = none) ∧
    (∀ i m, (extract_from_embedded_json s).get? i = some m →
      (reFindallRatings s).length ≤ i → m.rating = none) := by
  have h50 : (reFindallKeyStr "titleText" s).length > 50 := by omega
  have htake : (reFindallKeyStr "titleText" s).take 250 = reFindallKeyStr "titleText" s :=
    List.take_of_length_le (by omega)
  have hlen :
      (buildAligned 0 (reFindallKeyStr "titleText" s)
        (reFindallYears s) (reFindallRatings s)).length = 60 := by
    rw [buildAligned_length]
    exact ht
  have hne :
      ¬ (buildAligned 0 (reFindallKeyStr "titleText" s)
        (reFindallYears s) (reFindallRatings s)).isEmpty := by
    intro hcon
    rw [List.isEmpty_iff.mp hcon] at hlen
    simp at hlen
  have hres : extract_from_embedded_json s =
      buildAligned 0 (reFindallKeyStr "titleText" s)
        (reFindallYears s) (reFindallRatings s) := by
    unfold extract_from_embedded_json embeddedKeys
    simp only [embedded_loop, if_pos h50, List.nil_append, htake]
    rw [if_neg hne]
  refine ⟨by rw [hres]; exact hlen, by rw [hres]; omega, ?_, ?_⟩
  · intro i m hm h55
    rw [hres] at hm
    have := buildAligned_year _ 0 i _ _ _ hm
    rw [this]
    have : (reFindallYears s).get? (0 + i) = none :=
      List.get?_eq_none.mpr (by omega)
    rw [this]
    rfl
  · intro i m hm hrat
    rw [hres] at hm
    have := buildAligned_rating _ 0 i _ _ _ hm
    rw [this]
    exact List.get?_eq_none.mpr (by omega)

set_option maxRecDepth 200000 in
/-- C7 witness: on `c7Str` the title pattern matches 60 times and the year
pattern 55 times; the 60th item exists with `year = None`, and the 55th
still carries a year index inside the array bounds. -/
theorem extract_from_embedded_json_misaligned_witness :
    (extract_from_embedded_json c7Str).length = 60 ∧
    (extract_from_embedded_json c7Str).length ≤ 250 ∧
    (∀ i m, (extract_from_embedded_json c7Str).get? i = some m → 55 ≤ i →
      m.year = none) ∧
    (∀ i m, (extract_from_embedded_json c7Str).get? i = some m →
      (reFindallRatings c7Str).length ≤ i → m.rating = none) := by
  have hfuel : c7Str.length + 1 = 2121 := rfl
  have ht : (reFindallKeyStr "titleText" c7Str).length = 60 := by
    unfold reFindallKeyStr
    rw [hfuel]
    rfl
  have hy : (reFindallYears c7Str).length = 55 := by
    unfold reFindallYears
    rw [hfuel]
    rfl
  exact extract_from_embedded_json_misaligned c7Str ht hy

/-- C3 (counterexample): with the earlier selector yielding 10 elements
and the later one 60, the sweep's output has all 70 items — it begins with
the earlier selector's first item and is not the later selector's
extraction — because `movies` accumulates across selectors and the loop
only stops once the accumulated count exceeds 50. -/
theorem parse_html_accumulates_cex :
    (c3Soup.select "li.ipc-metadata-list-summary-item").length = 10 ∧
    (c3Soup.select "tr[data-testid]").length = 60 ∧
    (parse_html_for_movies c3Soup).length = 70 ∧
    (parse_html_for_movies c3Soup).head?.map Movie.title = some "Y0" ∧
    parse_html_for_movies c3Soup ≠ sweepExtract (c3Soup.select "tr[data-testid]") := by
  refine ⟨rfl, rfl, rfl, rfl, ?_⟩
  intro hEq
  have h70 : (parse_html_for_movies c3Soup).length = 70 := rfl
  have h60 : (sweepExtract (c3Soup.select "tr[data-testid]")).length = 60 := rfl
  rw [hEq, h60] at h70
  exact absurd h70 (by decide)

/-- C3 (amended): the selector sweep accumulates extracted items across
selectors in priority order; when the first selector's (nonempty) elements
extract at most 50 items and the second selector's elements push the
accumulated count above 50, the output is the first selector's items
followed by the second's — not the second's alone. -/
theorem parse_html_accumulates (soup : Soup)
    (h1 : (soup.select "li.ipc-metadata-list-summary-item").isEmpty = false)
    (h2 : (soup.select "tr[data-testid]").isEmpty = false)
    (hy : (sweepExtract (soup.select "li.ipc-metadata-list-summary-item")).length ≤ 50)
    (hx : 50 < (sweepExtract (soup.select "li.ipc-metadata-list-summary-item")).length +
      (sweepExtract (soup.select "tr[data-testid]")).length) :
    parse_html_for_movies soup =
      sweepExtract (soup.select "li.ipc-metadata-list-summary-item") ++
      sweepExtract (soup.select "tr[data-testid]") := by
  have h1n : ¬ ((soup.select "li.ipc-metadata-list-summary-item").isEmpty = true) := by
    rw [h1]
    exact Bool.false_ne_true
  have h2n : ¬ ((soup.select "tr[data-testid]").isEmpty = true) := by
    rw [h2]
    exact Bool.false_ne_true
  have hy2 : ¬ (((([] : List Movie) ++
      sweepExtract (soup.select "li.ipc-metadata-list-summary-item")).length) > 50) := by
    simp only [List.nil_append]
    omega
  have hx2 : ((([] : List Movie) ++
      sweepExtract (soup.select "li.ipc-metadata-list-summary-item")) ++
      sweepExtract (soup.select "tr[data-testid]")).length > 50 := by
    simp only [List.nil_append, List.length_append]
    omega
  unfold parse_html_for_movies sweep_selectors
  rw [sweep_loop, if_neg h1n, if_neg hy2, sweep_loop, if_neg h2n, if_pos hx2,
    List.nil_append]

/-- C3 witness for the amended statement, on the counterexample page. -/
theorem parse_html_accumulates_witness :
    parse_html_for_movies c3Soup =
      sweepExtract (c3Soup.select "li.ipc-metadata-list-summary-item") ++
      sweepExtract (c3Soup.select "tr[data-testid]") :=
  parse_html_accumulates c3Soup rfl rfl (by decide) (by decide)

theorem processEntry_ok (e : J) (acc : List Movie) (he : entryOk e = true) :
    ∃ m, processEntry acc e = .ok (acc ++ [m]) := by
  cases e with
  | null => exact absurd he (by simp [entryOk])
  | jbool b => exact absurd he (by simp [entryOk])
  | num n => exact absurd he (by simp [entryOk])
  | str s => exact absurd he (by simp [entryOk])
  | arr xs => exact absurd he (by simp [entryOk])
  | obj efs =>
    simp only [entryOk] at he
    cases hit : lookupJ efs "item" with
    | none => rw [hit] at he; exact absurd he (by simp)
    | some info =>
      rw [hit] at he
      cases info with
      | null => exact absurd he (by simp)
      | jbool b => exact absurd he (by simp)
      | num n => exact absurd he (by simp)
      | str s => exact absurd he (by simp)
      | arr xs => exact absurd he (by simp)
      | obj ifs =>
        simp only [Bool.and_eq_true] at he
        obtain ⟨hagg, hdate⟩ := he
        cases hag : lookupJ ifs "aggregateRating" with
        | none =>
          cases hda : lookupJ ifs "datePublished" with
          | none =>
            have hm : ∃ m, entryMovie efs (J.obj ifs) acc.length = .ok m := by
              simp only [entryMovie, hag, hda]
              exact ⟨_, rfl⟩
            obtain ⟨m, hm⟩ := hm
            exact ⟨m, by simp only [processEntry, hit, hm]⟩
          | some v =>
            rw [hda] at hdate
            cases v with
            | str s2 =>
              have hm : ∃ m, entryMovie efs (J.obj ifs) acc.length = .ok m := by
                simp only [entryMovie, hag, hda]
                exact ⟨_, rfl⟩
              obtain ⟨m, hm⟩ := hm
              exact ⟨m, by simp only [processEntry, hit, hm]⟩
            | null => exact absurd hdate (by simp)
            | jbool b => exact absurd hdate (by simp)
            | num n => exact absurd hdate (by simp)
            | arr xs => exact absurd hdate (by simp)
            | obj fs2 => exact absurd hdate (by simp)
        | some v =>
          rw [hag] at hagg
          cases v with
          | obj afs =>
            cases hda : lookupJ ifs "datePublished" with
            | none =>
              have hm : ∃ m, entryMovie efs (J.obj ifs) acc.length = .ok m := by
                simp only [entryMovie, hag, hda]
                exact ⟨_, rfl⟩
              obtain ⟨m, hm⟩ := hm
              exact ⟨m, by simp only [processEntry, hit, hm]⟩
            | some v2 =>
              rw [hda] at hdate
              cases v2 with
              | str s2 =>
                have hm : ∃ m, entryMovie efs (J.obj ifs) acc.length = .ok m := by
                  simp only [entryMovie, hag, hda]
                  exact ⟨_, rfl⟩
                obtain ⟨m, hm⟩ := hm
                exact ⟨m, by simp only [processEntry, hit, hm]⟩
              | null => exact absurd hdate (by simp)
              | jbool b => exact absurd hdate (by simp)
              | num n => exact absurd hdate (by simp)
              | arr xs => exact absurd hdate (by simp)
              | obj fs2 => exact absurd hdate (by simp)
          | null => exact absurd hagg (by simp)
          | jbool b => exact absurd hagg (by simp)
          | num n => exact absurd hagg (by simp)
          | str s2 => exact absurd hagg (by simp)
          | arr xs => exact absurd hagg (by simp)

theorem foldEntries_ok (es : List J) :
    ∀ acc, (∀ e ∈ es, entryOk e = true) →
      ∃ out, foldEntries es acc = .ok out ∧
        out.length = acc.length + es.length := by
  induction es with
  | nil => intro acc _; exact ⟨acc, rfl, by simp⟩
  | cons e es ih =>
    intro acc h
    obtain ⟨m, hm⟩ := processEntry_ok e acc (h e (by simp))
    obtain ⟨out, ho, hl⟩ := ih (acc ++ [m]) (fun x hx => h x (by simp [hx]))
    refine ⟨out, ?_, ?_⟩
    · simp only [foldEntries, hm, ho]
    · simp only [List.length_append, List.length_cons, List.length_nil] at hl
      simp only [List.length_cons]
      omega

/-- C4: when the first structured-data block parses to a dict whose
`itemListElement` is an array of exactly 100 well-formed entries, the page
extraction returns exactly those 100 items — independently of every later
structured-data block, every script tag and the HTML fallback, none of
which are examined. -/
theorem structured_data_first_block_returns_100 (fs : List (String × J))
    (entries : List J) (rest : List (Option J)) (scripts : List (Option String))
    (soup : Soup)
    (hfind : lookupJ fs "itemListElement" = some (J.arr entries))
    (hlen : entries.length = 100)
    (hok : ∀ e ∈ entries, entryOk e = true) :
    ∃ out, foldEntries entries [] = .ok out ∧
      extract_movies_from_any_page ⟨some (J.obj fs) :: rest, scripts, soup⟩ = out ∧
      out.length = 100 := by
  obtain ⟨out, ho, hl⟩ := foldEntries_ok entries [] hok
  simp only [List.length_nil, Nat.zero_add, hlen] at hl
  have h100 : out.length ≥ 100 := by omega
  refine ⟨out, ho, ?_, hl⟩
  unfold extract_movies_from_any_page
  simp only [ld_loop, ldStep, hfind, iterItems, ho, if_pos h100]

/-- C4 witness: a first block with 100 replicated well-formed entries. -/
theorem structured_data_first_block_returns_100_witness :
    ∃ out, foldEntries (List.replicate 100 c4Entry) [] = .ok out ∧
      extract_movies_from_any_page
        ⟨[some (J.obj [("itemListElement", J.arr (List.replicate 100 c4Entry))])],
          [], Soup.mk fun _ => []⟩ = out ∧
      out.length = 100 :=
  structured_data_first_block_returns_100 _ _ [] [] (Soup.mk fun _ => []) rfl
    (by simp) (fun e he => by rw [List.eq_of_mem_replicate he]; rfl)

theorem valid_filter_props (ms : List Movie) :
    ∀ seen, ((valid_filter ms seen).map Movie.title).Nodup ∧
      ∀ t ∈ (valid_filter ms seen).map Movie.title,
        t ≠ "" ∧ t ≠ "Unknown" ∧ t ∉ seen := by
  induction ms with
  | nil => intro seen; exact ⟨List.nodup_nil, by simp [valid_filter]⟩
  | cons m ms ih =>
    intro seen
    by_cases hc : (m.title ≠ "" && m.title ≠ "Unknown" && !(seen.contains m.title)) = true
    · have hc2 : m.title ≠ "" ∧ m.title ≠ "Unknown" ∧ m.title ∉ seen := by
        simpa [List.contains, List.elem_eq_mem, Bool.and_eq_true, and_assoc] using hc
      obtain ⟨ihn, ihm⟩ := ih (m.title :: seen)
      simp only [valid_filter, if_pos hc]
      constructor
      · simp only [List.map_cons, List.nodup_cons]
        refine ⟨fun hmem => ?_, ihn⟩
        exact (ihm _ hmem).2.2 (List.mem_cons_self _ _)
      · intro t ht
        simp only [List.map_cons, List.mem_cons] at ht
        rcases ht with rfl | ht
        · exact ⟨hc2.1, hc2.2.1, hc2.2.2⟩
        · have h3 := ihm t ht
          exact ⟨h3.1, h3.2.1, fun hmem => h3.2.2 (List.mem_cons_of_mem _ hmem)⟩
    · simp only [valid_filter, if_neg hc]
      exact ih seen

theorem valid_filter_eq_self (l : List Movie) :
    ∀ seen, ((l.map Movie.title).Nodup) →
      (∀ t ∈ l.map Movie.title, t ≠ "" ∧ t ≠ "Unknown" ∧ t ∉ seen) →
      valid_filter l seen = l := by
  induction l with
  | nil => intro seen _ _; rfl
  | cons m ms ih =>
    intro seen hnd hall
    have hm := hall m.title (by simp)
    have hcond : (m.title ≠ "" && m.title ≠ "Unknown" && !(seen.contains m.title)) = true := by
      simp [List.contains, List.elem_eq_mem, hm.1, hm.2.1, hm.2.2]
    have hnd2 : (∀ x ∈ ms, ¬ x.title = m.title) ∧ (ms.map Movie.title).Nodup := by
      simpa using hnd
    simp only [valid_filter, if_pos hcond]
    congr 1
    apply ih
    · exact hnd2.2
    · intro t ht
      have h3 := hall t (by simp [ht])
      refine ⟨h3.1, h3.2.1, ?_⟩
      intro hmem
      rcases List.mem_cons.mp hmem with rfl | hmem2
      · obtain ⟨x, hx, hxt⟩ := List.mem_map.mp ht
        exact hnd2.1 x hx hxt
      · exact h3.2.2 hmem2

theorem reassign_take_ranks (xs : List Movie) :
    ∀ i k, (((reassign_ranks i xs).take k).map Movie.rank)
      = (List.range' i (((reassign_ranks i xs).take k).length)).map
          fun j => some ((j : Nat) : Int) := by
  induction xs with
  | nil => intro i k; simp [reassign_ranks]
  | cons m ms ih =>
    intro i k
    cases k with
    | zero => simp
    | succ k =>
      simp only [reassign_ranks, List.take_succ_cons, List.map_cons, List.length_cons,
        List.range'_succ]
      rw [ih (i + 1) k]

theorem reassign_map_title (xs : List Movie) :
    ∀ i, (reassign_ranks i xs).map Movie.title = xs.map Movie.title := by
  induction xs with
  | nil => intro i; rfl
  | cons m ms ih =>
    intro i
    simp only [reassign_ranks, List.map_cons, ih (i + 1)]

theorem sort_by_rank_perm (l s : List Movie) (h : sort_by_rank l = .ok s) :
    s.Perm l := by
  unfold sort_by_rank at h
  split at h
  · cases h
    exact List.Perm.refl _
  · split at h
    · cases h
    · cases h
      exact List.perm_insertionSort _ _

theorem normalize_ok_spec (ms l : List Movie) (h : normalize ms = .ok l) :
    (l.map Movie.rank = (List.range' 1 l.length).map fun k => some ((k : Nat) : Int)) ∧
    (l.map Movie.title).Nodup ∧
    (∀ t ∈ l.map Movie.title, t ≠ "" ∧ t ≠ "Unknown") ∧
    l.length ≤ 250 := by
  unfold normalize at h
  cases hs : sort_by_rank (valid_filter ms []) with
  | error e => rw [hs] at h; cases h
  | ok sorted =>
    rw [hs] at h
    cases h
    have hperm := sort_by_rank_perm _ _ hs
    obtain ⟨hvn, hvm⟩ := valid_filter_props ms []
    have htitle : ((reassign_ranks 1 sorted).take 250).map Movie.title
        = (sorted.map Movie.title).take 250 := by
      rw [List.map_take, reassign_map_title]
    have h2 : (sorted.map Movie.title).Perm ((valid_filter ms []).map Movie.title) :=
      hperm.map _
    refine ⟨reassign_take_ranks sorted 1 250, ?_, ?_, List.length_take_le 250 _⟩
    · rw [htitle]
      exact List.Nodup.sublist (List.take_sublist _ _) (h2.nodup_iff.mpr hvn)
    · intro t ht
      rw [htitle] at ht
      have hmem : t ∈ sorted.map Movie.title := (List.take_sublist _ _).subset ht
      have := hvm t (h2.mem_iff.mp hmem)
      exact ⟨this.1, this.2.1⟩

theorem ranks_exact_props (l : List Movie) :
    ∀ i, (l.map Movie.rank = (List.range' i l.length).map fun k => some ((k : Nat) : Int)) →
      (∀ m ∈ l, ∃ k : Nat, i ≤ k ∧ m.rank = some ((k : Nat) : Int)) ∧
      List.Sorted rankLe l ∧ reassign_ranks i l = l := by
  induction l with
  | nil => intro i _; exact ⟨by simp, List.sorted_nil, rfl⟩
  | cons m ms ih =>
    intro i h
    simp only [List.map_cons, List.length_cons, List.range'_succ, List.cons.injEq] at h
    obtain ⟨h1, h2⟩ := h
    obtain ⟨hb, hs, hr⟩ := ih (i + 1) h2
    refine ⟨?_, ?_, ?_⟩
    · intro x hx
      rcases List.mem_cons.mp hx with rfl | hx2
      · exact ⟨i, le_refl i, h1⟩
      · obtain ⟨k, hk1, hk2⟩ := hb x hx2
        exact ⟨k, by omega, hk2⟩
    · rw [List.sorted_cons]
      refine ⟨?_, hs⟩
      intro b hbmem
      obtain ⟨k, hk1, hk2⟩ := hb b hbmem
      show rankKey m ≤ rankKey b
      rw [rankKey, rankKey, h1, hk2]
      simp only [Option.getD_some]
      exact_mod_cast Nat.le_of_succ_le hk1
    · simp only [reassign_ranks, hr]
      congr 1
      cases m with
      | mk mr mt my mra mu =>
        simp only at h1
        rw [h1]

/-- C1: whenever the normalization pass of `scrape_top250` returns a final
list, its ranks are exactly the contiguous sequence `1..N`, its titles are
pairwise distinct, no title is the "Unknown" sentinel, and `N ≤ 250`. -/
theorem normalize_final_invariants (ms l : List Movie) (h : normalize ms = .ok l) :
    (l.map Movie.rank = (List.range' 1 l.length).map fun k => some ((k : Nat) : Int)) ∧
    (l.map Movie.title).Nodup ∧
    "Unknown" ∉ l.map Movie.title ∧
    l.length ≤ 250 := by
  obtain ⟨h1, h2, h3, h4⟩ := normalize_ok_spec ms l h
  exact ⟨h1, h2, fun hc => (h3 _ hc).2 rfl, h4⟩

/-- C1 witness: a candidate list with a duplicate title, an "Unknown"
sentinel, an empty title and out-of-order ranks normalizes to a two-item
list satisfying every invariant. -/
theorem normalize_final_invariants_witness :
    (c1Output.map Movie.rank =
      (List.range' 1 c1Output.length).map fun k => some ((k : Nat) : Int)) ∧
    (c1Output.map Movie.title).Nodup ∧
    "Unknown" ∉ c1Output.map Movie.title ∧
    c1Output.length ≤ 250 :=
  normalize_final_invariants c1Input c1Output rfl

/-- C6: the normalization pass is idempotent — every list it returns is
returned unchanged when normalized again. -/
theorem normalize_idempotent (ms l : List Movie) (h : normalize ms = .ok l) :
    normalize l = .ok l := by
  obtain ⟨hrank, hnd, hgood, hlen⟩ := normalize_ok_spec ms l h
  obtain ⟨hbounds, hsorted, hreassign⟩ := ranks_exact_props l 1 hrank
  have hvf : valid_filter l [] = l :=
    valid_filter_eq_self l [] hnd
      (fun t ht => ⟨(hgood t ht).1, (hgood t ht).2, List.not_mem_nil t⟩)
  have hnone : ¬ (l.any fun m => m.rank.isNone) = true := by
    simp only [List.any_eq_true, Option.isNone_iff_eq_none, not_exists]
    rintro m ⟨hm, hcon⟩
    obtain ⟨k, _, hk⟩ := hbounds m hm
    rw [hk] at hcon
    cases hcon
  have hsort : sort_by_rank l = .ok l := by
    by_cases hl1 : l.length ≤ 1
    · unfold sort_by_rank
      rw [if_pos hl1]
    · unfold sort_by_rank
      rw [if_neg hl1, if_neg hnone, List.Sorted.insertionSort_eq hsorted]
  have htake : (reassign_ranks 1 l).take 250 = l := by
    rw [hreassign]
    exact List.take_of_length_le hlen
  unfold normalize
  rw [hvf, hsort]
  show Except.ok ((reassign_ranks 1 l).take 250) = Except.ok l
  rw [htake]

/-- C6 witness: normalizing an already-normalized concrete list returns it
unchanged. -/
theorem normalize_idempotent_witness : normalize c1Output = .ok c1Output :=
  normalize_idempotent c1Input c1Output rfl

end ImdbScraper

